import Mathlib

set_option linter.unreachableTactic false
set_option linter.unusedTactic false

/-!
Verification of the pisakart order-management backend (`src/main.py`).

The development shallowly embeds the data model and the endpoint bodies of
`main.py` into Lean:

* JSON/BSON documents become the mutual inductive `Value` / `ValueList` /
  `Fields` (Python dicts keep insertion order, so an object is an ordered
  association list; Python dict keys are unique, field update is
  replace-in-place, insertion of a fresh key appends at the end).
* Mongo collections become Lean lists of documents, and each endpoint body
  becomes a pure function from the collection state (plus the request
  payload and the current clock value) to an `Except`-style result and the
  new state.
* Python floats are modelled as finite decimals (`Dec`), which is exact for
  every value the monetary pipeline of this program produces.
-/

namespace Pisakart

/-- A finite decimal `man / 10 ^ exp`, modelling the Python floats that the
monetary pipeline of `main.py` manipulates (all of which are finite
decimals produced by `float` applied to a decimal literal). -/
structure Dec where
  man : Int
  exp : Nat
  deriving DecidableEq

mutual

/-- A JSON/BSON value as `main.py` sees it: `None`, booleans, ints, floats,
strings, Mongo ObjectIds, arrays and objects. -/
inductive Value where
  | vNull : Value
  | vBool : Bool → Value
  | vInt : Int → Value
  | vFlt : Dec → Value
  | vStr : String → Value
  | vOid : Nat → Value
  | vArr : ValueList → Value
  | vObj : Fields → Value
  deriving DecidableEq

/-- The elements of a JSON array, in order. -/
inductive ValueList where
  | nil : ValueList
  | cons : Value → ValueList → ValueList
  deriving DecidableEq

/-- The fields of a JSON object: an ordered association list, mirroring the
insertion order of a Python dict. -/
inductive Fields where
  | fnil : Fields
  | fcons : String → Value → Fields → Fields
  deriving DecidableEq

end

/-- `doc.get(key)` on a Python dict: the value of the first matching key. -/
def Fields.lookup : Fields → String → Option Value
  | .fnil, _ => none
  | .fcons k v fs, key => if k = key then some v else fs.lookup key

/-- `doc[key] = val` on a Python dict: replace the value in place when the
key is present, append the new binding at the end otherwise. -/
def Fields.setKey : Fields → String → Value → Fields
  | .fnil, key, val => .fcons key val .fnil
  | .fcons k v fs, key, val =>
      if k = key then .fcons key val fs else .fcons k v (fs.setKey key val)

theorem Fields.lookup_setKey_self :
    ∀ (fs : Fields) (k : String) (v : Value),
      (fs.setKey k v).lookup k = some v
  | .fnil, k, v => by simp [Fields.setKey, Fields.lookup]
  | .fcons k' v' fs, k, v => by
      by_cases h : k' = k
      · simp [Fields.setKey, h, Fields.lookup]
      · simp [Fields.setKey, h, Fields.lookup, Fields.lookup_setKey_self fs k v]

theorem Fields.lookup_setKey_ne :
    ∀ (fs : Fields) (k k' : String) (v : Value), k' ≠ k →
      (fs.setKey k v).lookup k' = fs.lookup k'
  | .fnil, k, k', v, h => by
      have h2 : k ≠ k' := Ne.symm h
      simp [Fields.setKey, Fields.lookup, h2]
  | .fcons k0 v0 fs, k, k', v, h => by
      by_cases h0 : k0 = k
      · subst h0
        have h2 : k0 ≠ k' := Ne.symm h
        simp [Fields.setKey, Fields.lookup, h2]
      · simp only [Fields.setKey, if_neg h0, Fields.lookup]
        by_cases h1 : k0 = k'
        · simp [h1]
        · simp [h1, Fields.lookup_setKey_ne fs k k' v h]

theorem Fields.setKey_eq_self :
    ∀ (fs : Fields) (k : String) (v : Value),
      fs.lookup k = some v → fs.setKey k v = fs
  | .fnil, k, v, h => by simp [Fields.lookup] at h
  | .fcons k0 v0 fs, k, v, h => by
      by_cases h0 : k0 = k
      · subst h0
        simp [Fields.lookup] at h
        simp [Fields.setKey, h]
      · simp [Fields.lookup, h0] at h
        simp [Fields.setKey, h0, Fields.setKey_eq_self fs k v h]

/-- Left-pad a digit string with zeros up to length `n`. -/
def padLeftZeros (s : String) (n : Nat) : String :=
  if s.length ≥ n then s else String.mk (List.replicate (n - s.length) '0') ++ s

/-- Drop trailing decimal zeros from a mantissa/exponent pair. -/
def Dec.normAux : Int → Nat → Dec
  | m, 0 => ⟨m, 0⟩
  | m, e + 1 => if m % 10 = 0 then Dec.normAux (m / 10) e else ⟨m, e + 1⟩

/-- Drop trailing decimal zeros: the normal form under which a Python float
prints (e.g. `1234.50` prints as `1234.5`). -/
def Dec.norm (d : Dec) : Dec :=
  Dec.normAux d.man d.exp

/-- Python `str`/`repr` of a finite-decimal float: shortest round-tripping
decimal, always with a decimal point (`str(0.0) == "0.0"`,
`str(float("1234.50")) == "1234.5"`). Scientific notation for very
large/small magnitudes is outside the range this program manipulates and is
not modelled. -/
def Dec.render (d : Dec) : String :=
  let d := d.norm
  if d.exp = 0 then toString d.man ++ ".0"
  else
    let sign := if d.man < 0 then "-" else ""
    let ds := List.replicate (d.exp + 1 - (toString d.man.natAbs).length) '0' ++
      (toString d.man.natAbs).data
    sign ++ String.mk (ds.take (ds.length - d.exp)) ++ "." ++
      String.mk (ds.drop (ds.length - d.exp))

/-- `str(ObjectId(..))`: the 24-character lowercase hex form of the id. -/
def toHex24 (n : Nat) : String :=
  padLeftZeros (String.mk (Nat.toDigits 16 n)) 24

mutual

/-- Python `repr` of a value (element rendering inside `repr` of a
container); string escaping inside quotes is not modelled. -/
def pyRepr : Value → String
  | .vNull => "None"
  | .vBool true => "True"
  | .vBool false => "False"
  | .vInt n => toString n
  | .vFlt d => d.render
  | .vStr s => "\x27" ++ s ++ "\x27"
  | .vOid n => "ObjectId(\x27" ++ toHex24 n ++ "\x27)"
  | .vArr xs => "[" ++ pyReprList xs ++ "]"
  | .vObj fs => "\x7b" ++ pyReprFields fs ++ "\x7d"

def pyReprList : ValueList → String
  | .nil => ""
  | .cons x .nil => pyRepr x
  | .cons x xs => pyRepr x ++ ", " ++ pyReprList xs

def pyReprFields : Fields → String
  | .fnil => ""
  | .fcons k v .fnil => "\x27" ++ k ++ "\x27: " ++ pyRepr v
  | .fcons k v fs => "\x27" ++ k ++ "\x27: " ++ pyRepr v ++ ", " ++ pyReprFields fs

end

/-- Python `str` of a value: like `repr`, except that a string is itself and
an ObjectId renders as its bare hex form. -/
def pyStr : Value → String
  | .vStr s => s
  | .vOid n => toHex24 n
  | v => pyRepr v

theorem pyStr_vStr (s : String) : pyStr (.vStr s) = s := rfl

mutual

/-- Nesting depth of a value (containers add one level). -/
def depthV : Value → Nat
  | .vArr xs => depthL xs + 1
  | .vObj fs => depthF fs + 1
  | _ => 0

def depthL : ValueList → Nat
  | .nil => 0
  | .cons x xs => max (depthV x) (depthL xs)

def depthF : Fields → Nat
  | .fnil => 0
  | .fcons _ v fs => max (depthV v) (depthF fs)

end

theorem depthF_setKey :
    ∀ (fs : Fields) (k : String) (v : Value),
      depthF (fs.setKey k v) ≤ max (depthF fs) (depthV v)
  | .fnil, k, v => by simp [Fields.setKey, depthF]
  | .fcons k0 v0 fs, k, v => by
      by_cases h0 : k0 = k
      · simp only [Fields.setKey, if_pos h0, depthF]
        omega
      · simp only [Fields.setKey, if_neg h0, depthF]
        have := depthF_setKey fs k v
        omega

/-- The `_id`-stringification step of `fix_objectids`: when the document has
an `_id`, replace it by its string form and mirror it into `id`. -/
def fixIdKeys (fs : Fields) : Fields :=
  match fs.lookup "_id" with
  | none => fs
  | some v => (fs.setKey "_id" (.vStr (pyStr v))).setKey "id" (.vStr (pyStr v))

theorem depthF_fixIdKeys (fs : Fields) : depthF (fixIdKeys fs) ≤ depthF fs := by
  cases h : fs.lookup "_id" with
  | none => simp [fixIdKeys, h]
  | some v =>
      have h1 := depthF_setKey (fs.setKey "_id" (.vStr (pyStr v))) "id"
        (.vStr (pyStr v))
      have h2 := depthF_setKey fs "_id" (.vStr (pyStr v))
      simp only [fixIdKeys, h]
      simp only [depthV] at h1 h2
      omega

mutual

/-- Node count of a value, the secondary termination measure for the
`fix_objectids` family. -/
def sizeV : Value → Nat
  | .vArr xs => sizeL xs + 1
  | .vObj fs => sizeF fs + 1
  | _ => 0

def sizeL : ValueList → Nat
  | .nil => 0
  | .cons x xs => sizeV x + sizeL xs + 1

def sizeF : Fields → Nat
  | .fnil => 0
  | .fcons _ v fs => sizeV v + sizeF fs + 1

end

/-- Lexicographic step where the primary component does not increase and the
secondary strictly drops. -/
theorem lexStep {x1 x2 y1 y2 : Nat} (hx : x1 ≤ x2) (hy : y1 < y2) :
    Prod.Lex (· < ·) (· < ·) (x1, y1) (x2, y2) := by
  rcases lt_or_eq_of_le hx with h | h
  · exact Prod.Lex.left _ _ h
  · subst h
    exact Prod.Lex.right _ hy

/-- Lexicographic step where the primary component strictly drops. -/
theorem lexLeft {x1 x2 y1 y2 : Nat} (hx : x1 < x2) :
    Prod.Lex (· < ·) (· < ·) (x1, y1) (x2, y2) :=
  Prod.Lex.left _ _ hx

mutual

/-- `fix_objectids` from `main.py`: on a list, recurse into every element;
on a dict, stringify `_id` (mirroring it into `id`) and then rewrite every
value — dict values recursively, list values shallowly (only their dict
elements); anything else is returned unchanged. -/
def fix_objectids : Value → Value
  | .vArr xs => .vArr (fixList xs)
  | .vObj fs => .vObj (fixFields (fixIdKeys fs))
  | v => v
termination_by v => (depthV v, sizeV v)
decreasing_by
all_goals first
  | exact lexLeft (by simp only [depthV, depthL, depthF]; omega)
  | exact lexLeft (by have := depthF_fixIdKeys fs; simp only [depthV, depthL, depthF]; omega)
  | exact lexStep (by simp only [depthV, depthL, depthF]; omega)
      (by simp only [sizeV, sizeL, sizeF]; omega)

/-- Elementwise `fix_objectids` over a top-level list. -/
def fixList : ValueList → ValueList
  | .nil => .nil
  | .cons x xs => .cons (fix_objectids x) (fixList xs)
termination_by xs => (depthL xs, sizeL xs)
decreasing_by
all_goals first
  | exact lexLeft (by simp only [depthV, depthL, depthF]; omega)
  | exact lexLeft (by have := depthF_fixIdKeys fs; simp only [depthV, depthL, depthF]; omega)
  | exact lexStep (by simp only [depthV, depthL, depthF]; omega)
      (by simp only [sizeV, sizeL, sizeF]; omega)

/-- The `for key, value in list(doc.items())` loop body of `fix_objectids`,
applied to every field of a dict. -/
def fixFields : Fields → Fields
  | .fnil => .fnil
  | .fcons k v fs => .fcons k (fixVal v) (fixFields fs)
termination_by fs => (depthF fs, sizeF fs)
decreasing_by
all_goals first
  | exact lexLeft (by simp only [depthV, depthL, depthF]; omega)
  | exact lexLeft (by have := depthF_fixIdKeys fs; simp only [depthV, depthL, depthF]; omega)
  | exact lexStep (by simp only [depthV, depthL, depthF]; omega)
      (by simp only [sizeV, sizeL, sizeF]; omega)

/-- How the loop rewrites one dict value: a dict value goes through
`fix_objectids`, a list value is rewritten shallowly, anything else is kept. -/
def fixVal : Value → Value
  | .vObj fs => .vObj (fixFields (fixIdKeys fs))
  | .vArr xs => .vArr (fixShallow xs)
  | v => v
termination_by v => (depthV v, sizeV v)
decreasing_by
all_goals first
  | exact lexLeft (by simp only [depthV, depthL, depthF]; omega)
  | exact lexLeft (by have := depthF_fixIdKeys fs; simp only [depthV, depthL, depthF]; omega)
  | exact lexStep (by simp only [depthV, depthL, depthF]; omega)
      (by simp only [sizeV, sizeL, sizeF]; omega)

/-- `[fix_objectids(item) if isinstance(item, dict) else item for item in value]`. -/
def fixShallow : ValueList → ValueList
  | .nil => .nil
  | .cons x xs => .cons (fixShallowItem x) (fixShallow xs)
termination_by xs => (depthL xs, sizeL xs)
decreasing_by
all_goals first
  | exact lexLeft (by simp only [depthV, depthL, depthF]; omega)
  | exact lexLeft (by have := depthF_fixIdKeys fs; simp only [depthV, depthL, depthF]; omega)
  | exact lexStep (by simp only [depthV, depthL, depthF]; omega)
      (by simp only [sizeV, sizeL, sizeF]; omega)

def fixShallowItem : Value → Value
  | .vObj fs => .vObj (fixFields (fixIdKeys fs))
  | v => v
termination_by v => (depthV v, sizeV v)
decreasing_by
all_goals first
  | exact lexLeft (by simp only [depthV, depthL, depthF]; omega)
  | exact lexLeft (by have := depthF_fixIdKeys fs; simp only [depthV, depthL, depthF]; omega)
  | exact lexStep (by simp only [depthV, depthL, depthF]; omega)
      (by simp only [sizeV, sizeL, sizeF]; omega)

end

theorem lookup_fixFields :
    ∀ (fs : Fields) (k : String),
      (fixFields fs).lookup k = (fs.lookup k).map fixVal
  | .fnil, k => by simp [fixFields, Fields.lookup]
  | .fcons k0 v0 fs, k => by
      by_cases h : k0 = k
      · simp [fixFields, Fields.lookup, h]
      · simp [fixFields, Fields.lookup, h, lookup_fixFields fs k]

theorem fixVal_vStr (s : String) : fixVal (.vStr s) = .vStr s := by
  simp [fixVal]

/-- The `_id`/`id` stringification is a no-op on a document that has already
been through one full pass of `fix_objectids`. -/
theorem fixIdKeys_fixed (fs : Fields) :
    fixIdKeys (fixFields (fixIdKeys fs)) = fixFields (fixIdKeys fs) := by
  cases h : fs.lookup "_id" with
  | none =>
      have hfs : fixIdKeys fs = fs := by simp [fixIdKeys, h]
      rw [hfs]
      have hid : (fixFields fs).lookup "_id" = none := by
        rw [lookup_fixFields, h]
        rfl
      simp [fixIdKeys, hid]
  | some v =>
      have hfs : fixIdKeys fs =
          (fs.setKey "_id" (.vStr (pyStr v))).setKey "id" (.vStr (pyStr v)) := by
        simp [fixIdKeys, h]
      have h1 : (fixIdKeys fs).lookup "_id" = some (.vStr (pyStr v)) := by
        rw [hfs, Fields.lookup_setKey_ne _ _ _ _ (by decide)]
        exact Fields.lookup_setKey_self _ _ _
      have h2 : (fixIdKeys fs).lookup "id" = some (.vStr (pyStr v)) := by
        rw [hfs]
        exact Fields.lookup_setKey_self _ _ _
      have g1 : (fixFields (fixIdKeys fs)).lookup "_id" =
          some (.vStr (pyStr v)) := by
        rw [lookup_fixFields, h1]
        simp [fixVal_vStr]
      have g2 : (fixFields (fixIdKeys fs)).lookup "id" =
          some (.vStr (pyStr v)) := by
        rw [lookup_fixFields, h2]
        simp [fixVal_vStr]
      set gs := fixFields (fixIdKeys fs) with hgs
      simp only [fixIdKeys, g1, pyStr_vStr]
      rw [Fields.setKey_eq_self _ _ _ g1, Fields.setKey_eq_self _ _ _ g2]

mutual

theorem fix_objectids_idem :
    ∀ v : Value, fix_objectids (fix_objectids v) = fix_objectids v
  | .vNull => by simp only [fix_objectids]
  | .vBool b => by simp only [fix_objectids]
  | .vInt n => by simp only [fix_objectids]
  | .vFlt d => by simp only [fix_objectids]
  | .vStr s => by simp only [fix_objectids]
  | .vOid n => by simp only [fix_objectids]
  | .vArr xs => by
      simp only [fix_objectids]
      rw [fixList_idem xs]
  | .vObj fs => by
      simp only [fix_objectids]
      rw [fixIdKeys_fixed fs, fixFields_idem (fixIdKeys fs)]
termination_by v => (depthV v, sizeV v)
decreasing_by
all_goals first
  | exact lexLeft (by simp only [depthV, depthL, depthF]; omega)
  | exact lexLeft (by have := depthF_fixIdKeys fs; simp only [depthV, depthL, depthF]; omega)
  | exact lexStep (by simp only [depthV, depthL, depthF]; omega)
      (by simp only [sizeV, sizeL, sizeF]; omega)

theorem fixList_idem :
    ∀ xs : ValueList, fixList (fixList xs) = fixList xs
  | .nil => by simp only [fixList]
  | .cons x xs => by
      simp only [fixList]
      rw [fix_objectids_idem x, fixList_idem xs]
termination_by xs => (depthL xs, sizeL xs)
decreasing_by
all_goals first
  | exact lexLeft (by simp only [depthV, depthL, depthF]; omega)
  | exact lexLeft (by have := depthF_fixIdKeys fs; simp only [depthV, depthL, depthF]; omega)
  | exact lexStep (by simp only [depthV, depthL, depthF]; omega)
      (by simp only [sizeV, sizeL, sizeF]; omega)

theorem fixFields_idem :
    ∀ fs : Fields, fixFields (fixFields fs) = fixFields fs
  | .fnil => by simp only [fixFields]
  | .fcons k v fs => by
      simp only [fixFields]
      rw [fixVal_idem v, fixFields_idem fs]
termination_by fs => (depthF fs, sizeF fs)
decreasing_by
all_goals first
  | exact lexLeft (by simp only [depthV, depthL, depthF]; omega)
  | exact lexLeft (by have := depthF_fixIdKeys fs; simp only [depthV, depthL, depthF]; omega)
  | exact lexStep (by simp only [depthV, depthL, depthF]; omega)
      (by simp only [sizeV, sizeL, sizeF]; omega)

theorem fixVal_idem :
    ∀ v : Value, fixVal (fixVal v) = fixVal v
  | .vNull => by simp only [fixVal]
  | .vBool b => by simp only [fixVal]
  | .vInt n => by simp only [fixVal]
  | .vFlt d => by simp only [fixVal]
  | .vStr s => by simp only [fixVal]
  | .vOid n => by simp only [fixVal]
  | .vArr xs => by
      simp only [fixVal]
      rw [fixShallow_idem xs]
  | .vObj fs => by
      simp only [fixVal]
      rw [fixIdKeys_fixed fs, fixFields_idem (fixIdKeys fs)]
termination_by v => (depthV v, sizeV v)
decreasing_by
all_goals first
  | exact lexLeft (by simp only [depthV, depthL, depthF]; omega)
  | exact lexLeft (by have := depthF_fixIdKeys fs; simp only [depthV, depthL, depthF]; omega)
  | exact lexStep (by simp only [depthV, depthL, depthF]; omega)
      (by simp only [sizeV, sizeL, sizeF]; omega)

theorem fixShallow_idem :
    ∀ xs : ValueList, fixShallow (fixShallow xs) = fixShallow xs
  | .nil => by simp only [fixShallow]
  | .cons x xs => by
      simp only [fixShallow]
      rw [fixShallowItem_idem x, fixShallow_idem xs]
termination_by xs => (depthL xs, sizeL xs)
decreasing_by
all_goals first
  | exact lexLeft (by simp only [depthV, depthL, depthF]; omega)
  | exact lexLeft (by have := depthF_fixIdKeys fs; simp only [depthV, depthL, depthF]; omega)
  | exact lexStep (by simp only [depthV, depthL, depthF]; omega)
      (by simp only [sizeV, sizeL, sizeF]; omega)

theorem fixShallowItem_idem :
    ∀ v : Value, fixShallowItem (fixShallowItem v) = fixShallowItem v
  | .vNull => by simp only [fixShallowItem]
  | .vBool b => by simp only [fixShallowItem]
  | .vInt n => by simp only [fixShallowItem]
  | .vFlt d => by simp only [fixShallowItem]
  | .vStr s => by simp only [fixShallowItem]
  | .vOid n => by simp only [fixShallowItem]
  | .vArr xs => by simp only [fixShallowItem]
  | .vObj fs => by
      simp only [fixShallowItem]
      rw [fixIdKeys_fixed fs, fixFields_idem (fixIdKeys fs)]
termination_by v => (depthV v, sizeV v)
decreasing_by
all_goals first
  | exact lexLeft (by simp only [depthV, depthL, depthF]; omega)
  | exact lexLeft (by have := depthF_fixIdKeys fs; simp only [depthV, depthL, depthF]; omega)
  | exact lexStep (by simp only [depthV, depthL, depthF]; omega)
      (by simp only [sizeV, sizeL, sizeF]; omega)

end

/-- C7: `fix_objectids` is idempotent — applying the identifier-fixing
projection twice to any document value (arbitrarily nested mappings and
sequences) yields the same result as applying it once. -/
theorem C7_fix_objectids_idempotent (v : Value) :
    fix_objectids (fix_objectids v) = fix_objectids v :=
  fix_objectids_idem v

/-! ### Monetary normalization (`_num` and the item-price coercion) -/

/-- Python `str.replace(pat, rep)` on character lists: replace every
non-overlapping occurrence left to right (empty pattern left unchanged,
a case the program never exercises). The `skip` counter consumes the tail
of a just-matched occurrence. -/
def replaceScan (pat rep : List Char) : List Char → Nat → List Char
  | [], _ => []
  | _ :: cs, skip + 1 => replaceScan pat rep cs skip
  | c :: cs, 0 =>
      if pat ≠ [] ∧ pat.isPrefixOf (c :: cs) then
        rep ++ replaceScan pat rep cs (pat.length - 1)
      else c :: replaceScan pat rep cs 0

/-- Python `str.replace` on strings. -/
def pyReplace (s pat rep : String) : String :=
  String.mk (replaceScan pat.data rep.data s.data 0)

/-- Python `str.strip()`: drop leading and trailing whitespace. -/
def pyStrip (s : String) : String :=
  String.mk
    (((s.data.dropWhile Char.isWhitespace).reverse.dropWhile
      Char.isWhitespace).reverse)

/-- Numeric value of a list of decimal digit characters. -/
def digitsToNat (cs : List Char) : Nat :=
  cs.foldl (fun a c => a * 10 + (c.toNat - 48)) 0

/-- Python `float(s)` on an already-stripped string, for the decimal-literal
forms this program feeds it: optional sign, then digits with at most one
decimal point (at least one digit overall). Exponent/`inf`/`nan` forms are
outside what the monetary pipeline produces and are not modelled; every
other string fails (`none`, i.e. `ValueError`). -/
def parsePyFloat (s : String) : Option Dec :=
  let step1 : Int × List Char :=
    match s.data with
    | '+' :: rest => (1, rest)
    | '-' :: rest => (-1, rest)
    | cs => (1, cs)
  let sign := step1.1
  let cs := step1.2
  let ip := cs.takeWhile Char.isDigit
  let rest := cs.dropWhile Char.isDigit
  match rest with
  | [] => if ip.isEmpty then none else some ⟨sign * digitsToNat ip, 0⟩
  | '.' :: rest2 =>
      let fp := rest2.takeWhile Char.isDigit
      let rest3 := rest2.dropWhile Char.isDigit
      if rest3.isEmpty ∧ ¬(ip.isEmpty ∧ fp.isEmpty) then
        some ⟨sign * digitsToNat (ip ++ fp), fp.length⟩
      else none
  | _ => none

/-- The first argument of the two `.replace(..., '')` calls in `main.py`.
The file on disk holds the bytes `C3 A2 E2 80 9A C2 B9`, which Python
(reading the source as UTF-8) decodes to the three characters
`U+00E2 U+201A U+00B9` — a mojibake artifact, NOT the rupee sign `U+20B9`.
The runtime therefore never strips an actual `"₹"`. -/
def mojibakeRupee : String := "â‚¹"

/-- `str(val).replace('â‚¹', '').replace(',', '').strip()` from `main.py`. -/
def stripMoney (v : Value) : String :=
  pyStrip (pyReplace (pyReplace (pyStr v) mojibakeRupee "") "," "")

/-- `_num` from `create_cart_any`: coerce any payload value to a float,
defaulting to `0.0` when `float(...)` raises. -/
def pyNum (v : Value) : Dec :=
  match parsePyFloat (stripMoney v) with
  | some d => d
  | none => ⟨0, 0⟩

/-- The stored form of a monetary field: `str(_num(val))`. -/
def numStore (v : Value) : String :=
  (pyNum v).render


/-! ### Cart payload normalization (`save_cart`, `create_cart_any`) -/

/-- Python truthiness of a JSON/BSON value. -/
def pyTruthy : Value → Bool
  | .vNull => false
  | .vBool b => b
  | .vInt n => n ≠ 0
  | .vFlt d => d.man ≠ 0
  | .vStr s => s ≠ ""
  | .vOid _ => true
  | .vArr xs => xs ≠ .nil
  | .vObj fs => fs ≠ .fnil

/-- Python `a or b`. -/
def pyOr (a b : Value) : Value :=
  if pyTruthy a then a else b

/-- The elements of a `ValueList` as a Lean list. -/
def ValueList.toList : ValueList → List Value
  | .nil => []
  | .cons v vs => v :: vs.toList

/-- A Lean list of values as a `ValueList`. -/
def listToVL : List Value → ValueList
  | [] => .nil
  | v :: vs => .cons v (listToVL vs)

/-- The most recently inserted customer document:
`orders_collection.find_one(sort=[("_id", -1)])`. ObjectIds grow with
insertion time, so on a collection modelled as a list in insertion order
this is the last element. -/
def latestUser (customers : List Fields) : Option Fields :=
  customers.getLast?

/-- `latest_user.get("pisa_code") or latest_user.get("user_code") if
latest_user else None`: the last-inserted-customer code heuristic. -/
def resolveCode (customers : List Fields) : Value :=
  match latestUser customers with
  | none => .vNull
  | some u => pyOr ((u.lookup "pisa_code").getD .vNull)
      ((u.lookup "user_code").getD .vNull)

/-- One entry of the Pydantic `CartItem` model. -/
structure CartItem where
  name : String
  price : Dec
  image : Option String
  category : Option String
  deriving DecidableEq

/-- The Pydantic `CartRequest` model (`/save-cart` input); `none` models a
JSON `null` for the optional fields. -/
structure CartRequest where
  items : List CartItem
  status : Option String
  subtotal : Option String
  total : Option String
  savings : Option String
  timestamp : Option String
  deriving DecidableEq

/-- An optional string as the JSON value Pydantic `.dict()` produces. -/
def optStrV : Option String → Value
  | none => .vNull
  | some s => .vStr s

/-- `.dict()` of one `CartItem`. -/
def itemToObj (it : CartItem) : Value :=
  .vObj (.fcons "name" (.vStr it.name) (.fcons "price" (.vFlt it.price)
    (.fcons "image" (optStrV it.image)
      (.fcons "category" (optStrV it.category) .fnil))))

/-- The document stored by `save_cart` (`POST /save-cart`): `cart.dict()`
in declared field order, then `processed_at` and `user_code` stamped, then
the status default — `"ordered" if cart_data.get("items") else "Ordered"` —
applied only when the `status` entry is falsy (`None` or `""`). -/
def save_cart_doc (cart : CartRequest) (customers : List Fields)
    (now : String) : Fields :=
  let base : Fields :=
    .fcons "items" (.vArr (listToVL (cart.items.map itemToObj)))
    (.fcons "status" (optStrV cart.status)
    (.fcons "subtotal" (optStrV cart.subtotal)
    (.fcons "total" (optStrV cart.total)
    (.fcons "savings" (optStrV cart.savings)
    (.fcons "timestamp" (optStrV cart.timestamp) .fnil)))))
  let base := base.setKey "processed_at" (.vStr now)
  let base := base.setKey "user_code" (resolveCode customers)
  if pyTruthy ((base.lookup "status").getD .vNull) then base
  else
    base.setKey "status"
      (.vStr (if pyTruthy ((base.lookup "items").getD .vNull)
        then "ordered" else "Ordered"))

/-- The `items` pre-step of `create_cart_any`: fetch `items` (default `[]`),
re-parse it through `json.loads` when it is a string (falling back to `[]`),
and coerce any non-list to `[]`. `loads` abstracts `json.loads` (`none` =
raises); the theorems below hold for every such parser. -/
def create_cart_any_items (loads : String → Option Value) (payload : Fields) :
    List Value :=
  let items := (payload.lookup "items").getD (.vArr .nil)
  let items := match items with
    | .vStr s => match loads s with
        | some v => v
        | none => .vArr .nil
    | v => v
  match items with
  | .vArr xs => xs.toList
  | _ => []

/-- The per-item loop of `create_cart_any`: parse string items through
`json.loads` (unparsable strings become `{"name": str(it), "price": 0}`),
keep only dict items, and rebuild each as name/price/image/category with
the price run through the currency coercion. -/
def normItems (loads : String → Option Value) : List Value → List Fields
  | [] => []
  | it :: rest =>
      let it2 : Value := match it with
        | .vStr s =>
            match loads s with
            | some v => v
            | none => .vObj (.fcons "name" (.vStr (pyStr (.vStr s)))
                (.fcons "price" (.vInt 0) .fnil))
        | v => v
      match it2 with
      | .vObj f =>
          (.fcons "name" (pyOr ((f.lookup "name").getD (.vStr "")) (.vStr "-"))
            (.fcons "price" (.vFlt (pyNum ((f.lookup "price").getD (.vInt 0))))
              (.fcons "image" ((f.lookup "image").getD .vNull)
                (.fcons "category" ((f.lookup "category").getD .vNull) .fnil))))
            :: normItems loads rest
      | _ => normItems loads rest

/-- The document stored by `create_cart_any` (`POST /carts`, the first
registered handler): normalized items, the three monetary fields through
`_num` and re-serialized with `str`, the `or`-chained timestamp,
`processed_at` stamped at write time, the user-code resolution, and
`payload.get("status") or "Ordered"`. -/
def create_cart_any_doc (loads : String → Option Value)
    (customers : List Fields) (payload : Fields) (now : String) : Fields :=
  .fcons "items"
    (.vArr (listToVL ((normItems loads
      (create_cart_any_items loads payload)).map Value.vObj)))
  (.fcons "subtotal" (.vStr (numStore ((payload.lookup "subtotal").getD
      ((payload.lookup "sub_total").getD (.vInt 0)))))
  (.fcons "total" (.vStr (numStore ((payload.lookup "total").getD
      ((payload.lookup "grand_total").getD (.vInt 0)))))
  (.fcons "savings" (.vStr (numStore ((payload.lookup "savings").getD
      (.vInt 0))))
  (.fcons "timestamp" (pyOr ((payload.lookup "timestamp").getD .vNull)
      (pyOr ((payload.lookup "processed_at").getD .vNull) (.vStr now)))
  (.fcons "processed_at" (.vStr now)
  (.fcons "user_code" (pyOr ((payload.lookup "user_code").getD .vNull)
      (resolveCode customers))
  (.fcons "status" (pyOr ((payload.lookup "status").getD .vNull)
      (.vStr "Ordered")) .fnil)))))))

/-- C2 counterexample: the claim says the unparsable string `"abc"` is
stored as `"0"`, but `str(0.0)` is `"0.0"`, so the stored value differs
from `"0"`. -/
theorem C2_counterexample_abc_stored :
    numStore (.vStr "abc") ≠ "0" := by decide

/-- C2 (amended): the currency coercion never strips the real rupee sign —
the source literal is the three-character mojibake sequence `â‚¹`, so
`"₹1,234.50"` fails `float` and is stored as `"0.0"`; an unparsable string
such as `"abc"` is stored as `"0.0"` (not `"0"`); a numeric input `1234.5`
is stored as `"1234.5"`; a plain comma-grouped string `"1,234.50"` is
stored as `"1234.5"`; parsing never raises (the model is total, with the
`0.0` fallback); and `create_cart_any` stores exactly `str(_num(...))` of
the raw subtotal/total/savings fields. -/
theorem C2_amended_monetary_parsing :
    numStore (.vStr "₹1,234.50") = "0.0" ∧
    numStore (.vStr "abc") = "0.0" ∧
    numStore (.vFlt ⟨12345, 1⟩) = "1234.5" ∧
    numStore (.vStr "1,234.50") = "1234.5" ∧
    (∀ (loads : String → Option Value) (customers : List Fields)
      (payload : Fields) (now : String),
      (create_cart_any_doc loads customers payload now).lookup "subtotal" =
        some (.vStr (numStore ((payload.lookup "subtotal").getD
          ((payload.lookup "sub_total").getD (.vInt 0))))) ∧
      (create_cart_any_doc loads customers payload now).lookup "savings" =
        some (.vStr (numStore ((payload.lookup "savings").getD
          (.vInt 0))))) := by
  refine ⟨by decide, by decide, by decide, by decide, ?_⟩
  intro loads customers payload now
  constructor
  · simp [create_cart_any_doc, Fields.lookup]
  · simp [create_cart_any_doc, Fields.lookup]

/-- C3 counterexample: a `create_cart_any` payload with one item and no
`status` field is stored with status `"Ordered"`, not the lowercase
`"ordered"` the claim requires for the cart-saving operations. -/
theorem C3_counterexample_create_cart_any_status :
    (create_cart_any_doc (fun _ => none) []
      (.fcons "items" (.vArr (.cons (.vObj (.fcons "name" (.vStr "A")
        (.fcons "price" (.vInt 10) .fnil))) .nil)) .fnil) "T").lookup
      "status" ≠ some (.vStr "ordered") := by decide

/-- C3 (amended): the asymmetric casing holds for `save_cart` only — with
no (or falsy) `status`, `save_cart` stores `"ordered"` when items are
present and `"Ordered"` when the items list is empty, while
`create_cart_any` stores `"Ordered"` regardless of the items list. -/
theorem C3_amended_status_default :
    (∀ (cart : CartRequest) (customers : List Fields) (now : String),
      cart.status = none →
        (save_cart_doc cart customers now).lookup "status" =
          some (.vStr (if cart.items = [] then "Ordered" else "ordered"))) ∧
    (∀ (loads : String → Option Value) (customers : List Fields)
      (payload : Fields) (now : String),
      payload.lookup "status" = none →
        (create_cart_any_doc loads customers payload now).lookup "status" =
          some (.vStr "Ordered")) := by
  constructor
  · intro cart customers now hst
    cases hit : cart.items with
    | nil =>
        simp [save_cart_doc, hst, hit, optStrV, pyTruthy, Fields.lookup,
          Fields.setKey, listToVL, Fields.lookup_setKey_self]
    | cons a as =>
        simp [save_cart_doc, hst, hit, optStrV, pyTruthy, Fields.lookup,
          Fields.setKey, listToVL, Fields.lookup_setKey_self]
  · intro loads customers payload now hst
    simp [create_cart_any_doc, hst, pyOr, pyTruthy, Fields.lookup]

/-- C3 witness: the amended statement applied at concrete inputs — a
one-item request through `save_cart` stores `"ordered"`, and a one-item
payload through `create_cart_any` stores `"Ordered"`. -/
theorem C3_amended_status_default_witness :
    (save_cart_doc ⟨[⟨"A", ⟨10, 0⟩, none, none⟩], none, some "0", some "0",
        some "0", none⟩ [] "T").lookup "status" = some (.vStr "ordered") ∧
    (create_cart_any_doc (fun _ => none) []
      (.fcons "items" (.vArr (.cons (.vObj (.fcons "name" (.vStr "A")
        (.fcons "price" (.vInt 10) .fnil))) .nil)) .fnil) "T").lookup
      "status" = some (.vStr "Ordered") := by
  constructor
  · have h := C3_amended_status_default.1
      ⟨[⟨"A", ⟨10, 0⟩, none, none⟩], none, some "0", some "0", some "0",
        none⟩ [] "T" rfl
    simpa using h
  · exact C3_amended_status_default.2 (fun _ => none) []
      (.fcons "items" (.vArr (.cons (.vObj (.fcons "name" (.vStr "A")
        (.fcons "price" (.vInt 10) .fnil))) .nil)) .fnil) "T" rfl

/-! ### Address ledger (`create_user`, `add_address`, `record_address`) -/

/-- An HTTP error as raised by `HTTPException(status_code, detail)`;
status 500 stands for an uncaught exception reaching the framework. -/
structure HErr where
  status : Nat
  detail : String
  deriving DecidableEq

/-- The customers and address_history collections, each a list of documents
in insertion order. -/
structure LedgerState where
  customers : List Fields
  history : List Fields
  deriving DecidableEq

/-- Append one value to a `ValueList`. -/
def vlAppend : ValueList → Value → ValueList
  | .nil, v => .cons v .nil
  | .cons x xs, v => .cons x (vlAppend xs v)

/-- Whether a document is covered by the `unique_address_per_user` partial
index, i.e. its `type` matches `{"$in": ["new", "added"]}`. -/
def dedupIndexed (d : Fields) : Bool :=
  let t := (d.lookup "type").getD .vNull
  t == .vStr "new" || t == .vStr "added"

/-- The four key values of the `unique_address_per_user` index; a missing
field indexes as null. Mongo's array-containment matching is not modelled
(no claim exercises array-valued key fields). -/
def histKey (d : Fields) : Value × Value × Value × Value :=
  ((d.lookup "userCode").getD .vNull, (d.lookup "street").getD .vNull,
   (d.lookup "pincode").getD .vNull, (d.lookup "phonenumber").getD .vNull)

/-- `insert_one` into address_history under the partial unique index:
`none` models `DuplicateKeyError` — raised exactly when the new document is
itself covered by the partial index and some stored covered document has
the same key tuple. -/
def histInsert (hist : List Fields) (d : Fields) : Option (List Fields) :=
  if dedupIndexed d &&
      (hist.any fun h => dedupIndexed h && (histKey h == histKey d))
  then none
  else some (hist ++ [d])

/-- The app-level duplicate pre-check filter of `add_address`: equality on
(userCode, street, pincode, phonenumber) against the payload's values, with
a missing stored field matching a null filter value. Note it does NOT
filter on `type`. -/
def tupleFilter (user_code : String) (address : Fields) (h : Fields) : Bool :=
  (h.lookup "userCode").getD .vNull == .vStr user_code &&
  (h.lookup "street").getD .vNull == (address.lookup "street").getD .vNull &&
  (h.lookup "pincode").getD .vNull == (address.lookup "pincode").getD .vNull &&
  (h.lookup "phonenumber").getD .vNull ==
    (address.lookup "phonenumber").getD .vNull

/-- Outcome of `update_one({"user_code": ...}, {"$push": {"addresses": ...}})`. -/
inductive PushResult where
  | noMatch : PushResult
  | pushError : PushResult
  | ok : List Fields → PushResult
  deriving DecidableEq

/-- `$push` of the address into one customer document: appends to an
existing `addresses` array, creates the array when the field is missing,
and fails (server error) when the field holds a non-array. -/
def pushOne (doc : Fields) (address : Fields) : Option Fields :=
  match doc.lookup "addresses" with
  | none => some (doc.setKey "addresses" (.vArr (.cons (.vObj address) .nil)))
  | some (.vArr xs) =>
      some (doc.setKey "addresses" (.vArr (vlAppend xs (.vObj address))))
  | some _ => none

/-- `update_one` over the customers collection: update the first document
whose `user_code` equals the given string. -/
def pushAddress : List Fields → String → Fields → PushResult
  | [], _, _ => .noMatch
  | c :: cs, uc, address =>
      if (c.lookup "user_code").getD .vNull == .vStr uc then
        match pushOne c address with
        | none => .pushError
        | some c2 => .ok (c2 :: cs)
      else
        match pushAddress cs uc address with
        | .noMatch => .noMatch
        | .pushError => .pushError
        | .ok cs2 => .ok (c :: cs2)

/-- The history entry written by `add_address`:
`{**address, "userCode": user_code, "type": "added", "timestamp": now}`. -/
def addedEntry (address : Fields) (user_code now : String) : Fields :=
  ((address.setKey "userCode" (.vStr user_code)).setKey "type"
    (.vStr "added")).setKey "timestamp" (.vStr now)

/-- `add_address` (`POST /add-address/{user_code}`): reject 400 when any
history entry (of any type) matches the (userCode, street, pincode, phone)
filter; 404 when no customer matches; otherwise push the address onto the
customer and insert an `added` history entry. The final insert is outside
any try/except, so a `DuplicateKeyError` there would surface as a 500. -/
def add_address (st : LedgerState) (user_code : String) (address : Fields)
    (now : String) : Except HErr String × LedgerState :=
  match st.history.find? (tupleFilter user_code address) with
  | some _ => (.error ⟨400, "This address already exists for this user"⟩, st)
  | none =>
      match pushAddress st.customers user_code address with
      | .noMatch => (.error ⟨404, "User not found"⟩, st)
      | .pushError => (.error ⟨500, "$push to non-array"⟩, st)
      | .ok cs2 =>
          match histInsert st.history (addedEntry address user_code now) with
          | none =>
              (.error ⟨500, "DuplicateKeyError"⟩,
                { customers := cs2, history := st.history })
          | some h2 => (.ok "Address added", { customers := cs2, history := h2 })

/-- `record_address` (`POST /api/record-address`): skip (not an error) any
payload whose `type` is not exactly `"selected"`; otherwise stamp the
timestamp and insert unconditionally. -/
def record_address (st : LedgerState) (address : Fields) (now : String) :
    Except HErr String × LedgerState :=
  if (address.lookup "type").getD .vNull ≠ .vStr "selected" then
    (.ok "skipped", st)
  else
    match histInsert st.history (address.setKey "timestamp" (.vStr now)) with
    | none => (.error ⟨500, "DuplicateKeyError"⟩, st)
    | some h2 => (.ok "success", { st with history := h2 })

/-- The customer document inserted by `create_user`. -/
def createUserDoc (address : Fields) (code now : String) : Fields :=
  .fcons "user_code" (.vStr code)
    (.fcons "addresses" (.vArr (.cons (.vObj address) .nil))
      (.fcons "created_at" (.vStr now) .fnil))

/-- The history entry written by `create_user`:
`{**address, "userCode": user_code, "type": "new", "timestamp": now}`. -/
def newEntry (address : Fields) (code now : String) : Fields :=
  ((address.setKey "userCode" (.vStr code)).setKey "type"
    (.vStr "new")).setKey "timestamp" (.vStr now)

/-- `create_user` (`POST /create-user`). The generate-and-retry loop is
modelled by its exit condition: the supplied `code` is one no existing
customer carries; theorems quantify over every such code. The history
insert sits in a `try/except DuplicateKeyError: pass`, so a duplicate is
swallowed and success is returned regardless. -/
def create_user (st : LedgerState) (address : Fields) (code now : String) :
    Except HErr (String × String) × LedgerState :=
  let customers2 := st.customers ++ [createUserDoc address code now]
  match histInsert st.history (newEntry address code now) with
  | none => (.ok ("User created", code), ⟨customers2, st.history⟩)
  | some h2 => (.ok ("User created", code), ⟨customers2, h2⟩)

/-- The while-loop exit condition of `create_user`'s code generator:
no existing customer document carries this `user_code`. -/
def freshCode (customers : List Fields) (code : String) : Bool :=
  customers.all fun c => !((c.lookup "user_code").getD .vNull == .vStr code)

theorem addedEntry_key (address : Fields) (uc now : String) :
    histKey (addedEntry address uc now) =
      (.vStr uc, (address.lookup "street").getD .vNull,
       (address.lookup "pincode").getD .vNull,
       (address.lookup "phonenumber").getD .vNull) := by
  unfold histKey addedEntry
  rw [Fields.lookup_setKey_ne _ _ "userCode" _ (by decide),
    Fields.lookup_setKey_ne _ _ "userCode" _ (by decide),
    Fields.lookup_setKey_self,
    Fields.lookup_setKey_ne _ _ "street" _ (by decide),
    Fields.lookup_setKey_ne _ _ "street" _ (by decide),
    Fields.lookup_setKey_ne _ _ "street" _ (by decide),
    Fields.lookup_setKey_ne _ _ "pincode" _ (by decide),
    Fields.lookup_setKey_ne _ _ "pincode" _ (by decide),
    Fields.lookup_setKey_ne _ _ "pincode" _ (by decide),
    Fields.lookup_setKey_ne _ _ "phonenumber" _ (by decide),
    Fields.lookup_setKey_ne _ _ "phonenumber" _ (by decide),
    Fields.lookup_setKey_ne _ _ "phonenumber" _ (by decide)]
  rfl

theorem addedEntry_type (address : Fields) (uc now : String) :
    (addedEntry address uc now).lookup "type" = some (.vStr "added") := by
  unfold addedEntry
  rw [Fields.lookup_setKey_ne _ _ "type" _ (by decide),
    Fields.lookup_setKey_self]

theorem dedupIndexed_addedEntry (address : Fields) (uc now : String) :
    dedupIndexed (addedEntry address uc now) = true := by
  simp [dedupIndexed, addedEntry_type]

/-- A history document whose index key tuple equals the key tuple of the
entry `add_address` is about to write satisfies the app-level pre-check
filter, and conversely. -/
theorem tupleFilter_iff_key (uc : String) (address h : Fields) :
    tupleFilter uc address h = true ↔
      histKey h = histKey (addedEntry address uc "x") := by
  rw [addedEntry_key]
  simp only [tupleFilter, histKey, Bool.and_eq_true, beq_iff_eq,
    Prod.mk.injEq]
  tauto

theorem tupleFilter_addedEntry (uc : String) (address : Fields)
    (now : String) :
    tupleFilter uc address (addedEntry address uc now) = true := by
  rw [tupleFilter_iff_key]
  rw [addedEntry_key, addedEntry_key]

/-- C1 counterexample: a history containing only a `selected`-typed entry
with tuple (111111, S, 1, 9) makes `add_address` for the same tuple fail
with the duplicate error (and store nothing) — the app-level pre-check
matches entries of every type, so `selected` entries do trigger the
uniqueness check, contradicting the claim. -/
theorem C1_counterexample_selected_triggers_dedup :
    add_address
      ⟨[.fcons "user_code" (.vStr "111111") .fnil],
       [.fcons "street" (.vStr "S") (.fcons "pincode" (.vStr "1")
         (.fcons "phonenumber" (.vStr "9") (.fcons "userCode"
           (.vStr "111111") (.fcons "type" (.vStr "selected") .fnil))))]⟩
      "111111"
      (.fcons "street" (.vStr "S") (.fcons "pincode" (.vStr "1")
        (.fcons "phonenumber" (.vStr "9") .fnil))) "T" =
    (.error ⟨400, "This address already exists for this user"⟩,
      ⟨[.fcons "user_code" (.vStr "111111") .fnil],
       [.fcons "street" (.vStr "S") (.fcons "pincode" (.vStr "1")
         (.fcons "phonenumber" (.vStr "9") (.fcons "userCode"
           (.vStr "111111") (.fcons "type" (.vStr "selected") .fnil))))]⟩) :=
  rfl

/-- C1 (amended): (i) submitting the identical (customerCode, street,
pincode, phone) twice through `add_address` (kind `added`) stores exactly
one matching entry, with the second submission rejected by the duplicate
error and the state unchanged; (ii) `record_address` with kind `selected`
always appends, any number of times (selected entries are exempt from the
store-level unique index); but (iii) the `add_address` pre-check matches
entries of ANY type, so an existing `selected` entry with the same tuple
also causes rejection — selected entries do not trigger the store-level
index, yet they do trigger the app-level check. -/
theorem C1_amended_address_dedup :
    (∀ (st : LedgerState) (uc : String) (address : Fields)
      (now now2 : String) (cs2 : List Fields),
      st.history.find? (tupleFilter uc address) = none →
      pushAddress st.customers uc address = .ok cs2 →
      (add_address st uc address now).1 = .ok "Address added" ∧
      ((add_address st uc address now).2.history.filter
        (tupleFilter uc address)).length = 1 ∧
      (add_address (add_address st uc address now).2 uc address now2).1 =
        .error ⟨400, "This address already exists for this user"⟩ ∧
      (add_address (add_address st uc address now).2 uc address now2).2 =
        (add_address st uc address now).2) ∧
    (∀ (st : LedgerState) (address : Fields) (now : String),
      (address.lookup "type").getD .vNull = .vStr "selected" →
      (record_address st address now).1 = .ok "success" ∧
      (record_address st address now).2.history =
        st.history ++ [address.setKey "timestamp" (.vStr now)]) ∧
    (∀ (st : LedgerState) (uc : String) (address : Fields) (now : String)
      (h : Fields),
      st.history.find? (tupleFilter uc address) = some h →
      add_address st uc address now =
        (.error ⟨400, "This address already exists for this user"⟩, st)) := by
  refine ⟨?_, ?_, ?_⟩
  · intro st uc address now now2 cs2 hfind hpush
    have hnone : ∀ x ∈ st.history, ¬ tupleFilter uc address x :=
      List.find?_eq_none.mp hfind
    have hins : histInsert st.history (addedEntry address uc now) =
        some (st.history ++ [addedEntry address uc now]) := by
      unfold histInsert
      have hany : (st.history.any fun h => dedupIndexed h &&
          (histKey h == histKey (addedEntry address uc now))) = false := by
        by_contra hc
        rw [Bool.not_eq_false, List.any_eq_true] at hc
        obtain ⟨x, hx, hxp⟩ := hc
        rw [Bool.and_eq_true, beq_iff_eq] at hxp
        have : tupleFilter uc address x = true := by
          rw [tupleFilter_iff_key]
          rw [addedEntry_key] at hxp ⊢
          exact hxp.2
        exact hnone x hx this
      rw [hany]
      simp
    have hstep : add_address st uc address now =
        (.ok "Address added",
          ⟨cs2, st.history ++ [addedEntry address uc now]⟩) := by
      unfold add_address
      rw [hfind, hpush, hins]
    refine ⟨by rw [hstep], ?_, ?_, ?_⟩
    · rw [hstep]
      simp only [List.filter_append]
      have h1 : st.history.filter (tupleFilter uc address) = [] := by
        rw [List.filter_eq_nil_iff]
        intro a ha
        simpa using hnone a ha
      rw [h1]
      simp [tupleFilter_addedEntry]
    · rw [hstep]
      unfold add_address
      simp only [List.find?_append, hfind, Option.none_or]
      rw [List.find?_cons_of_pos _ (tupleFilter_addedEntry uc address now)]
    · rw [hstep]
      unfold add_address
      simp only [List.find?_append, hfind, Option.none_or]
      rw [List.find?_cons_of_pos _ (tupleFilter_addedEntry uc address now)]
  · intro st address now hsel
    unfold record_address
    rw [if_neg (by simp [hsel])]
    have hty : (address.setKey "timestamp" (.vStr now)).lookup "type" =
        address.lookup "type" :=
      Fields.lookup_setKey_ne _ _ _ _ (by decide)
    have hded : dedupIndexed (address.setKey "timestamp" (.vStr now)) =
        false := by
      simp only [dedupIndexed, hty, hsel]
      decide
    have hins : histInsert st.history
        (address.setKey "timestamp" (.vStr now)) =
        some (st.history ++ [address.setKey "timestamp" (.vStr now)]) := by
      unfold histInsert
      rw [hded]
      simp
    rw [hins]
    exact ⟨rfl, rfl⟩
  · intro st uc address now h hfind
    unfold add_address
    rw [hfind]

/-- C1 witness: the amended statement applied at concrete inputs — adding
(222222, S, 1, 9) once succeeds and stores one matching entry, the repeat
is rejected with the duplicate error; recording a `selected` address twice
appends both times; and an existing `selected` entry blocks `add_address`. -/
theorem C1_amended_address_dedup_witness :
    ((add_address ⟨[.fcons "user_code" (.vStr "222222") .fnil], []⟩ "222222"
        (.fcons "street" (.vStr "S") (.fcons "pincode" (.vStr "1")
          (.fcons "phonenumber" (.vStr "9") .fnil))) "T1").1 =
      .ok "Address added") ∧
    ((add_address (add_address ⟨[.fcons "user_code" (.vStr "222222") .fnil],
        []⟩ "222222" (.fcons "street" (.vStr "S") (.fcons "pincode"
          (.vStr "1") (.fcons "phonenumber" (.vStr "9") .fnil))) "T1").2
        "222222" (.fcons "street" (.vStr "S") (.fcons "pincode" (.vStr "1")
          (.fcons "phonenumber" (.vStr "9") .fnil))) "T2").1 =
      .error ⟨400, "This address already exists for this user"⟩) ∧
    ((record_address ⟨[], [.fcons "type" (.vStr "selected") .fnil]⟩
        (.fcons "type" (.vStr "selected") .fnil) "T3").1 = .ok "success") ∧
    ((add_address ⟨[.fcons "user_code" (.vStr "111111") .fnil],
        [.fcons "street" (.vStr "S") (.fcons "pincode" (.vStr "1")
          (.fcons "phonenumber" (.vStr "9") (.fcons "userCode"
            (.vStr "111111") (.fcons "type" (.vStr "selected") .fnil))))]⟩
        "111111" (.fcons "street" (.vStr "S") (.fcons "pincode" (.vStr "1")
          (.fcons "phonenumber" (.vStr "9") .fnil))) "T4") =
      (.error ⟨400, "This address already exists for this user"⟩,
        ⟨[.fcons "user_code" (.vStr "111111") .fnil],
         [.fcons "street" (.vStr "S") (.fcons "pincode" (.vStr "1")
           (.fcons "phonenumber" (.vStr "9") (.fcons "userCode"
             (.vStr "111111") (.fcons "type" (.vStr "selected")
               .fnil))))]⟩)) := by
  have h1 := C1_amended_address_dedup.1
    ⟨[.fcons "user_code" (.vStr "222222") .fnil], []⟩ "222222"
    (.fcons "street" (.vStr "S") (.fcons "pincode" (.vStr "1")
      (.fcons "phonenumber" (.vStr "9") .fnil))) "T1" "T2"
    [.fcons "user_code" (.vStr "222222")
      (.fcons "addresses" (.vArr (.cons (.vObj (.fcons "street" (.vStr "S")
        (.fcons "pincode" (.vStr "1") (.fcons "phonenumber" (.vStr "9")
          .fnil)))) .nil)) .fnil)]
    (by decide) (by decide)
  have h2 := C1_amended_address_dedup.2.1
    ⟨[], [.fcons "type" (.vStr "selected") .fnil]⟩
    (.fcons "type" (.vStr "selected") .fnil) "T3" (by decide)
  have h3 := C1_amended_address_dedup.2.2
    ⟨[.fcons "user_code" (.vStr "111111") .fnil],
     [.fcons "street" (.vStr "S") (.fcons "pincode" (.vStr "1")
       (.fcons "phonenumber" (.vStr "9") (.fcons "userCode" (.vStr "111111")
         (.fcons "type" (.vStr "selected") .fnil))))]⟩
    "111111" (.fcons "street" (.vStr "S") (.fcons "pincode" (.vStr "1")
      (.fcons "phonenumber" (.vStr "9") .fnil))) "T4"
    (.fcons "street" (.vStr "S") (.fcons "pincode" (.vStr "1")
      (.fcons "phonenumber" (.vStr "9") (.fcons "userCode" (.vStr "111111")
        (.fcons "type" (.vStr "selected") .fnil))))) (by decide)
  exact ⟨h1.1, h1.2.2.1, h2.1, h3⟩

/-- C10: `create_user` always inserts the customer document and returns
success carrying the freshly generated code, even when the accompanying
address-history insert hits the dedup unique index: that
`DuplicateKeyError` is swallowed (history unchanged), the customer document
remains inserted, and no duplicate error reaches the caller. -/
theorem C10_create_user_swallows_duplicate :
    ∀ (st : LedgerState) (address : Fields) (code now : String),
      freshCode st.customers code = true →
      (create_user st address code now).1 = .ok ("User created", code) ∧
      (create_user st address code now).2.customers =
        st.customers ++ [createUserDoc address code now] ∧
      (histInsert st.history (newEntry address code now) = none →
        (create_user st address code now).2.history = st.history) ∧
      (∀ h2, histInsert st.history (newEntry address code now) = some h2 →
        (create_user st address code now).2.history = h2) := by
  intro st address code now _
  cases hins : histInsert st.history (newEntry address code now) with
  | none =>
      refine ⟨?_, ?_, ?_, ?_⟩ <;>
        simp [create_user, hins]
  | some h2 =>
      refine ⟨?_, ?_, ?_, ?_⟩ <;>
        simp [create_user, hins]

/-- C10 witness: at a state whose history already holds an `added` entry
with the same (userCode, street, pincode, phone) tuple, `create_user`
still succeeds, the customer is inserted, and the history is left
unchanged (the duplicate was swallowed). -/
theorem C10_create_user_swallows_duplicate_witness :
    (create_user ⟨[], [.fcons "street" (.vStr "S") (.fcons "pincode"
        (.vStr "1") (.fcons "phonenumber" (.vStr "9") (.fcons "userCode"
          (.vStr "123456") (.fcons "type" (.vStr "added") .fnil))))]⟩
      (.fcons "street" (.vStr "S") (.fcons "pincode" (.vStr "1")
        (.fcons "phonenumber" (.vStr "9") .fnil))) "123456" "T").1 =
      .ok ("User created", "123456") ∧
    (create_user ⟨[], [.fcons "street" (.vStr "S") (.fcons "pincode"
        (.vStr "1") (.fcons "phonenumber" (.vStr "9") (.fcons "userCode"
          (.vStr "123456") (.fcons "type" (.vStr "added") .fnil))))]⟩
      (.fcons "street" (.vStr "S") (.fcons "pincode" (.vStr "1")
        (.fcons "phonenumber" (.vStr "9") .fnil))) "123456" "T").2.history =
      [.fcons "street" (.vStr "S") (.fcons "pincode" (.vStr "1")
        (.fcons "phonenumber" (.vStr "9") (.fcons "userCode"
          (.vStr "123456") (.fcons "type" (.vStr "added") .fnil))))] := by
  have h := C10_create_user_swallows_duplicate
    ⟨[], [.fcons "street" (.vStr "S") (.fcons "pincode" (.vStr "1")
      (.fcons "phonenumber" (.vStr "9") (.fcons "userCode" (.vStr "123456")
        (.fcons "type" (.vStr "added") .fnil))))]⟩
    (.fcons "street" (.vStr "S") (.fcons "pincode" (.vStr "1")
      (.fcons "phonenumber" (.vStr "9") .fnil))) "123456" "T" (by decide)
  exact ⟨h.1, h.2.2.1 (by decide)⟩

/-! ### Id-addressed operations: ObjectId parsing, deletes, status update -/

/-- Hexadecimal digit (either case), as accepted by `ObjectId(...)`. -/
def isHexChar (c : Char) : Bool :=
  c.isDigit || ('a' ≤ c && c ≤ 'f') || ('A' ≤ c && c ≤ 'F')

def hexVal (c : Char) : Nat :=
  if c.isDigit then c.toNat - 48
  else if 'a' ≤ c && c ≤ 'f' then c.toNat - 87
  else c.toNat - 55

/-- `ObjectId(s)` for a string argument: valid exactly when `s` is a
24-character hex string; `none` models the `InvalidId` exception. -/
def parseOid (s : String) : Option Nat :=
  if s.length = 24 && s.data.all isHexChar then
    some (s.data.foldl (fun a c => a * 16 + hexVal c) 0)
  else none

/-- `find_one_and_delete({"_id": oid})`: remove and return the first
document whose `_id` equals the id; `none` when no document matches. -/
def findDelete (docs : List Fields) (oid : Nat) :
    Option (Fields × List Fields) :=
  match docs with
  | [] => none
  | d :: ds =>
      if (d.lookup "_id").getD .vNull == .vOid oid then some (d, ds)
      else
        match findDelete ds oid with
        | none => none
        | some (x, rest) => some (x, d :: rest)

/-- Python `str.lower()` (ASCII case folding, which is all the guard
compares). -/
def pyLower (s : String) : String :=
  String.mk (s.data.map Char.toLower)

/-- The `not id or id.lower() == "undefined"` guard shared by the delete
endpoints (`None`, the empty string, or any casing of `undefined`). -/
def missingOrUndef : Option String → Bool
  | none => true
  | some s => s == "" || pyLower s == "undefined"

/-- `DELETE /carts/{cart_id}` (`delete_cart`): parse the path id, then
find-and-delete; the deleted document is returned through `fix_objectids`.
Detail strings are those of `main.py`. -/
def delete_cart (carts : List Fields) (cart_id : String) :
    Except HErr Value × List Fields :=
  match parseOid cart_id with
  | none => (.error ⟨400, "Invalid cart id"⟩, carts)
  | some oid =>
      match findDelete carts oid with
      | none => (.error ⟨404, "Cart not found"⟩, carts)
      | some (d, rest) => (.ok (fix_objectids (.vObj d)), rest)

/-- `DELETE /api/delete-address` (`api_delete_address`); `id` is the
outcome of `extract_id_from_request` (query param or body field, `none`
when absent). The missing-id detail string is abbreviated (the original
embeds JSON braces). -/
def api_delete_address (history : List Fields) (id : Option String) :
    Except HErr Value × List Fields :=
  if missingOrUndef id then
    (.error ⟨400, "Address id is missing"⟩, history)
  else
    match parseOid (id.getD "") with
    | none => (.error ⟨400, "Invalid address id format."⟩, history)
    | some oid =>
        match findDelete history oid with
        | none => (.error ⟨404, "Address not found"⟩, history)
        | some (d, rest) => (.ok (fix_objectids (.vObj d)), rest)

/-- `DELETE /carts` (`delete_cart_by_body`), same shape as the address
delete. -/
def delete_cart_by_body (carts : List Fields) (id : Option String) :
    Except HErr Value × List Fields :=
  if missingOrUndef id then
    (.error ⟨400, "Cart id is missing"⟩, carts)
  else
    match parseOid (id.getD "") with
    | none => (.error ⟨400, "Invalid cart id format."⟩, carts)
    | some oid =>
        match findDelete carts oid with
        | none => (.error ⟨404, "Cart not found"⟩, carts)
        | some (d, rest) => (.ok (fix_objectids (.vObj d)), rest)

/-- `DELETE /payments/{payment_id}` (`delete_payment_by_param`): the path
parameter is always a string, and the same undefined guard applies. -/
def delete_payment_by_param (payments : List Fields) (payment_id : String) :
    Except HErr Value × List Fields :=
  if payment_id == "" || pyLower payment_id == "undefined" then
    (.error ⟨400, "Payment id is missing or undefined."⟩, payments)
  else
    match parseOid payment_id with
    | none => (.error ⟨400, "Invalid payment id format."⟩, payments)
    | some oid =>
        match findDelete payments oid with
        | none => (.error ⟨404, "Payment not found"⟩, payments)
        | some (d, rest) => (.ok (fix_objectids (.vObj d)), rest)

/-- `DELETE /payments` (`delete_payment`), body/query id variant. -/
def delete_payment (payments : List Fields) (id : Option String) :
    Except HErr Value × List Fields :=
  if missingOrUndef id then
    (.error ⟨400, "Payment id is missing"⟩, payments)
  else
    match parseOid (id.getD "") with
    | none => (.error ⟨400, "Invalid payment id format."⟩, payments)
    | some oid =>
        match findDelete payments oid with
        | none => (.error ⟨404, "Payment not found"⟩, payments)
        | some (d, rest) => (.ok (fix_objectids (.vObj d)), rest)

/-- `{"$set": {"status": status, "updated_at": now}}` applied to one
document. -/
def setStatusFields (d : Fields) (status : Value) (now : String) : Fields :=
  (d.setKey "status" status).setKey "updated_at" (.vStr now)

/-- `update_one({"_id": oid}, {"$set": ...})` over the carts collection:
update the first matching document; the boolean is Mongo's
`modified_count == 1`, true exactly when the write changed the document. -/
def updateFirst : List Fields → Nat → Value → String →
    Option (Bool × List Fields)
  | [], _, _, _ => none
  | d :: ds, oid, status, now =>
      if (d.lookup "_id").getD .vNull == .vOid oid then
        some (setStatusFields d status now != d,
          setStatusFields d status now :: ds)
      else
        match updateFirst ds oid status now with
        | none => none
        | some (m, ds2) => some (m, d :: ds2)

/-- `POST /carts/update-status` (`update_cart_status`): 400 when `order_id`
is falsy, 400 when it is not a well-formed ObjectId string, then an
unconditional `$set` of status and `updated_at` — but success is reported
only when `result.modified_count == 1`, otherwise 404. -/
def update_cart_status (carts : List Fields) (body : Fields) (now : String) :
    Except HErr String × List Fields :=
  let order_id := (body.lookup "order_id").getD .vNull
  if !pyTruthy order_id then (.error ⟨400, "order_id missing"⟩, carts)
  else
    match (match order_id with | .vStr s => parseOid s | _ => none) with
    | none => (.error ⟨400, "Invalid order id"⟩, carts)
    | some oid =>
        let new_status := (body.lookup "new_status").getD .vNull
        match updateFirst carts oid new_status now with
        | none => (.error ⟨404, "Order not found"⟩, carts)
        | some (m, carts2) =>
            if m then (.ok "Status updated", carts2)
            else (.error ⟨404, "Order not found"⟩, carts2)

/-! ### Payments -/

/-- The document inserted by `save_payment_method`
(`POST /api/payment-method`). -/
def paymentDoc (pm : String) (customers : List Fields) (now : String) :
    Fields :=
  .fcons "payment_method" (.vStr pm)
    (.fcons "timestamp" (.vStr now)
      (.fcons "user_code" (resolveCode customers) .fnil))

/-- `POST /api/payment-method` (`save_payment_method`): validates the
method against `["prepaid", "cod"]` before inserting. -/
def save_payment_method (payments customers : List Fields) (pm : String)
    (now : String) : Except HErr String × List Fields :=
  if !(pm == "prepaid" || pm == "cod") then
    (.error ⟨400, "Invalid payment method"⟩, payments)
  else (.ok "success", payments ++ [paymentDoc pm customers now])

/-- The document inserted by `create_payment` (`POST /payments`): the
client timestamp when truthy, else the server clock. -/
def createPaymentDoc (pm : String) (timestamp : Option String)
    (customers : List Fields) (now : String) : Fields :=
  .fcons "payment_method" (.vStr pm)
    (.fcons "timestamp" (.vStr (match timestamp with
      | some s => if s = "" then now else s
      | none => now))
      (.fcons "user_code" (resolveCode customers) .fnil))

/-- `POST /payments` (`create_payment`): inserts whatever
`payment_method` string the request carries — there is no validation on
this path. -/
def create_payment (payments customers : List Fields) (pm : String)
    (timestamp : Option String) (now : String) :
    Except HErr Value × List Fields :=
  (.ok (fix_objectids (.vObj (createPaymentDoc pm timestamp customers now))),
    payments ++ [createPaymentDoc pm timestamp customers now])

instance exceptDecEq {e a : Type} [DecidableEq e] [DecidableEq a] :
    DecidableEq (Except e a)
  | .ok x, .ok y => decidable_of_iff (x = y) (by simp)
  | .error x, .error y => decidable_of_iff (x = y) (by simp)
  | .ok _, .error _ => isFalse (by simp)
  | .error _, .ok _ => isFalse (by simp)

/-- C4 counterexample: the cart `{_id: ..01, status: "cancelled",
updated_at: "T"}` exists and matches the supplied id, yet updating its
status to `"cancelled"` again at clock value `"T"` modifies nothing, so
`modified_count == 1` fails and the endpoint reports `Order not found` —
a matching document yields NotFound, contradicting the claim. -/
theorem C4_counterexample_matched_but_not_found :
    update_cart_status
      [.fcons "_id" (.vOid 1) (.fcons "status" (.vStr "cancelled")
        (.fcons "updated_at" (.vStr "T") .fnil))]
      (.fcons "order_id" (.vStr "000000000000000000000001")
        (.fcons "new_status" (.vStr "cancelled") .fnil)) "T" =
      (.error ⟨404, "Order not found"⟩,
        [.fcons "_id" (.vOid 1) (.fcons "status" (.vStr "cancelled")
          (.fcons "updated_at" (.vStr "T") .fnil))]) ∧
    parseOid "000000000000000000000001" = some 1 ∧
    (((Fields.fcons "_id" (.vOid 1) (.fcons "status" (.vStr "cancelled")
      (.fcons "updated_at" (.vStr "T") .fnil))).lookup "_id").getD .vNull ==
      Value.vOid 1) = true := by
  refine ⟨by decide, by decide, by decide⟩

/-- C4 (amended): the update unconditionally overwrites `status` and stamps
`updated_at`; it fails with BadRequest on a falsy `order_id` and with
InvalidId on a malformed one; but NotFound is reported exactly when the
`$set` modifies no document — either no document matches the id, or the
matching document already carries the identical status and `updated_at`
values — so a document that exists and matches can still yield NotFound. -/
theorem C4_amended_update_status :
    (∀ (d : Fields) (ns : Value) (now : String),
      (setStatusFields d ns now).lookup "status" = some ns ∧
      (setStatusFields d ns now).lookup "updated_at" = some (.vStr now)) ∧
    (∀ (carts : List Fields) (body : Fields) (now : String),
      pyTruthy ((body.lookup "order_id").getD .vNull) = false →
      update_cart_status carts body now =
        (.error ⟨400, "order_id missing"⟩, carts)) ∧
    (∀ (carts : List Fields) (body : Fields) (now s : String),
      (body.lookup "order_id").getD .vNull = .vStr s → s ≠ "" →
      parseOid s = none →
      update_cart_status carts body now =
        (.error ⟨400, "Invalid order id"⟩, carts)) ∧
    (∀ (carts : List Fields) (body : Fields) (now s : String) (oid : Nat),
      (body.lookup "order_id").getD .vNull = .vStr s →
      parseOid s = some oid →
      ((∃ carts2, update_cart_status carts body now =
          (.ok "Status updated", carts2)) ↔
        (∃ carts2, updateFirst carts oid
          ((body.lookup "new_status").getD .vNull) now =
            some (true, carts2))) ∧
      ((update_cart_status carts body now).1 =
          .error ⟨404, "Order not found"⟩ ↔
        (updateFirst carts oid ((body.lookup "new_status").getD .vNull) now
            = none ∨
          ∃ carts2, updateFirst carts oid
            ((body.lookup "new_status").getD .vNull) now =
              some (false, carts2)))) := by
  refine ⟨?_, ?_, ?_, ?_⟩
  · intro d ns now
    constructor
    · unfold setStatusFields
      rw [Fields.lookup_setKey_ne _ _ "status" _ (by decide),
        Fields.lookup_setKey_self]
    · unfold setStatusFields
      rw [Fields.lookup_setKey_self]
  · intro carts body now h
    simp [update_cart_status, h]
  · intro carts body now s hb hs hp
    have ht : pyTruthy (.vStr s) = true := by simp [pyTruthy, hs]
    simp [update_cart_status, hb, ht, hp]
  · intro carts body now s oid hb hp
    have hs : s ≠ "" := by
      intro he
      subst he
      simp [parseOid] at hp
    have ht : pyTruthy (.vStr s) = true := by simp [pyTruthy, hs]
    cases hu : updateFirst carts oid ((body.lookup "new_status").getD .vNull)
        now with
    | none => simp [update_cart_status, hb, ht, hp, hu]
    | some pair =>
        rcases pair with ⟨m, carts2⟩
        cases m with
        | true => simp [update_cart_status, hb, ht, hp, hu]
        | false => simp [update_cart_status, hb, ht, hp, hu]

/-- C4 witness: the amended statement at concrete inputs — a missing
`order_id` gives BadRequest, a malformed one gives InvalidId, and a real
status change reports success. -/
theorem C4_amended_update_status_witness :
    update_cart_status [] (.fcons "x" (.vStr "y") .fnil) "T" =
      (.error ⟨400, "order_id missing"⟩, []) ∧
    update_cart_status [] (.fcons "order_id" (.vStr "zzz") .fnil) "T" =
      (.error ⟨400, "Invalid order id"⟩, []) ∧
    (∃ carts2, update_cart_status
      [.fcons "_id" (.vOid 1) (.fcons "status" (.vStr "x") .fnil)]
      (.fcons "order_id" (.vStr "000000000000000000000001")
        (.fcons "new_status" (.vStr "y") .fnil)) "T2" =
      (.ok "Status updated", carts2)) := by
  refine ⟨C4_amended_update_status.2.1 [] _ "T" (by decide),
    C4_amended_update_status.2.2.1 [] _ "T" "zzz" (by decide) (by decide)
      (by decide), ?_⟩
  have h := (C4_amended_update_status.2.2.2
    [.fcons "_id" (.vOid 1) (.fcons "status" (.vStr "x") .fnil)]
    (.fcons "order_id" (.vStr "000000000000000000000001")
      (.fcons "new_status" (.vStr "y") .fnil)) "T2"
    "000000000000000000000001" 1 (by decide) (by decide)).1
  exact h.mpr ⟨[((Fields.fcons "_id" (.vOid 1) (.fcons "status" (.vStr "x")
    .fnil)).setKey "status" (.vStr "y")).setKey "updated_at" (.vStr "T2")],
    by decide⟩

theorem findDelete_spec :
    ∀ (docs : List Fields) (oid : Nat) (d : Fields) (rest : List Fields),
      findDelete docs oid = some (d, rest) →
      (d.lookup "_id").getD .vNull = .vOid oid ∧
      ∃ l1 l2, docs = l1 ++ d :: l2 ∧ rest = l1 ++ l2
  | [], _, _, _, h => by simp [findDelete] at h
  | x :: ds, oid, d, rest, h => by
      unfold findDelete at h
      by_cases hx : ((x.lookup "_id").getD .vNull == .vOid oid) = true
      · rw [if_pos hx] at h
        simp only [Option.some.injEq, Prod.mk.injEq] at h
        obtain ⟨h1, h2⟩ := h
        subst h1
        subst h2
        exact ⟨beq_iff_eq.mp hx, [], ds, rfl, rfl⟩
      · rw [if_neg hx] at h
        cases hrec : findDelete ds oid with
        | none =>
            rw [hrec] at h
            simp at h
        | some pr =>
            rcases pr with ⟨x2, rest2⟩
            rw [hrec] at h
            simp only [Option.some.injEq, Prod.mk.injEq] at h
            obtain ⟨h1, h2⟩ := h
            obtain ⟨hk, l1, l2, hd2, hr⟩ :=
              findDelete_spec ds oid x2 rest2 hrec
            refine ⟨h1 ▸ hk, x :: l1, l2, ?_, ?_⟩
            · rw [hd2, h1]
              rfl
            · rw [← h2, hr]
              rfl

/-- C6: for `delete_cart` (path id) and `api_delete_address` — a
well-formed id matching no document fails with NotFound; a malformed id
string fails with InvalidId (a 400, never a 500-class error); a successful
deletion returns the deleted entry (whose `_id` matches) and removes
exactly that entry; and in every failure case the store is unchanged. -/
theorem C6_delete_by_id :
    (∀ (carts : List Fields) (s : String) (oid : Nat),
      parseOid s = some oid → findDelete carts oid = none →
      delete_cart carts s = (.error ⟨404, "Cart not found"⟩, carts)) ∧
    (∀ (carts : List Fields) (s : String),
      parseOid s = none →
      delete_cart carts s = (.error ⟨400, "Invalid cart id"⟩, carts)) ∧
    (∀ (carts : List Fields) (s : String) (oid : Nat) (d : Fields)
      (rest : List Fields),
      parseOid s = some oid → findDelete carts oid = some (d, rest) →
      delete_cart carts s = (.ok (fix_objectids (.vObj d)), rest) ∧
      (d.lookup "_id").getD .vNull = .vOid oid ∧
      ∃ l1 l2, carts = l1 ++ d :: l2 ∧ rest = l1 ++ l2) ∧
    (∀ (history : List Fields) (id : String) (oid : Nat),
      missingOrUndef (some id) = false →
      parseOid id = some oid → findDelete history oid = none →
      api_delete_address history (some id) =
        (.error ⟨404, "Address not found"⟩, history)) ∧
    (∀ (history : List Fields) (id : String),
      missingOrUndef (some id) = false → parseOid id = none →
      api_delete_address history (some id) =
        (.error ⟨400, "Invalid address id format."⟩, history)) ∧
    (∀ (history : List Fields) (id : String) (oid : Nat) (d : Fields)
      (rest : List Fields),
      missingOrUndef (some id) = false →
      parseOid id = some oid → findDelete history oid = some (d, rest) →
      api_delete_address history (some id) =
        (.ok (fix_objectids (.vObj d)), rest) ∧
      ∃ l1 l2, history = l1 ++ d :: l2 ∧ rest = l1 ++ l2) := by
  refine ⟨?_, ?_, ?_, ?_, ?_, ?_⟩
  · intro carts s oid hp hf
    simp [delete_cart, hp, hf]
  · intro carts s hp
    simp [delete_cart, hp]
  · intro carts s oid d rest hp hf
    obtain ⟨hk, l1, l2, hd, hr⟩ := findDelete_spec carts oid d rest hf
    refine ⟨?_, hk, l1, l2, hd, hr⟩
    simp [delete_cart, hp, hf]
  · intro history id oid hm hp hf
    simp [api_delete_address, hm, hp, hf]
  · intro history id hm hp
    simp [api_delete_address, hm, hp]
  · intro history id oid d rest hm hp hf
    obtain ⟨hk, l1, l2, hd, hr⟩ := findDelete_spec history oid d rest hf
    refine ⟨?_, l1, l2, hd, hr⟩
    simp [api_delete_address, hm, hp, hf]

/-- C6 witness: the statement at concrete inputs — deleting a well-formed
but absent id reports NotFound, a malformed id reports the invalid-format
error, and deleting an existing document returns it. -/
theorem C6_delete_by_id_witness :
    delete_cart [] "000000000000000000000000" =
      (.error ⟨404, "Cart not found"⟩, []) ∧
    delete_cart [] "not-an-objectid" =
      (.error ⟨400, "Invalid cart id"⟩, []) ∧
    delete_cart [.fcons "_id" (.vOid 0) .fnil]
        "000000000000000000000000" =
      (.ok (fix_objectids (.vObj (.fcons "_id" (.vOid 0) .fnil))), []) ∧
    api_delete_address [] (some "not-an-objectid") =
      (.error ⟨400, "Invalid address id format."⟩, []) := by
  refine ⟨C6_delete_by_id.1 [] _ 0 (by decide) (by decide),
    C6_delete_by_id.2.1 [] _ (by decide), ?_,
    C6_delete_by_id.2.2.2.2.1 [] _ (by decide) (by decide)⟩
  exact (C6_delete_by_id.2.2.1 [.fcons "_id" (.vOid 0) .fnil]
    "000000000000000000000000" 0 (.fcons "_id" (.vOid 0) .fnil) []
    (by decide) (by decide)).1

/-- C8 counterexample: `POST /payments` (`create_payment`) performs no
validation — submitting the method string `"foo"` succeeds and inserts a
payment document whose `payment_method` is `"foo"`, outside
`{prepaid, cod}`, with no BadRequest. -/
theorem C8_counterexample_create_payment_no_validation :
    (create_payment [] [] "foo" none "T").2 =
      [createPaymentDoc "foo" none [] "T"] ∧
    (createPaymentDoc "foo" none [] "T").lookup "payment_method" =
      some (.vStr "foo") ∧
    (create_payment [] [] "foo" none "T").1 =
      .ok (fix_objectids (.vObj (createPaymentDoc "foo" none [] "T"))) ∧
    ¬("foo" = "prepaid" ∨ "foo" = "cod") :=
  ⟨rfl, by decide, rfl, by decide⟩

/-- C8 (amended): only `save_payment_method` (`POST /api/payment-method`)
validates `payment_method` against `{prepaid, cod}`, rejecting anything
else with BadRequest and inserting nothing; `create_payment`
(`POST /payments`) inserts a document carrying whatever method string was
submitted, with no validation. -/
theorem C8_amended_payment_method :
    (∀ (payments customers : List Fields) (pm now : String),
      ¬(pm = "prepaid" ∨ pm = "cod") →
      save_payment_method payments customers pm now =
        (.error ⟨400, "Invalid payment method"⟩, payments)) ∧
    (∀ (payments customers : List Fields) (pm now : String),
      (pm = "prepaid" ∨ pm = "cod") →
      save_payment_method payments customers pm now =
        (.ok "success", payments ++ [paymentDoc pm customers now]) ∧
      (paymentDoc pm customers now).lookup "payment_method" =
        some (.vStr pm)) ∧
    (∀ (payments customers : List Fields) (pm now : String)
      (timestamp : Option String),
      create_payment payments customers pm timestamp now =
        (.ok (fix_objectids (.vObj
          (createPaymentDoc pm timestamp customers now))),
          payments ++ [createPaymentDoc pm timestamp customers now]) ∧
      (createPaymentDoc pm timestamp customers now).lookup
        "payment_method" = some (.vStr pm)) := by
  refine ⟨?_, ?_, ?_⟩
  · intro payments customers pm now h
    unfold save_payment_method
    have : (pm == "prepaid" || pm == "cod") = false := by
      simp only [Bool.or_eq_false_iff, beq_eq_false_iff_ne]
      exact ⟨fun he => h (Or.inl he), fun he => h (Or.inr he)⟩
    rw [this]
    simp
  · intro payments customers pm now h
    unfold save_payment_method
    have : (pm == "prepaid" || pm == "cod") = true := by
      rcases h with h | h <;> simp [h]
    rw [this]
    exact ⟨rfl, by simp [paymentDoc, Fields.lookup]⟩
  · intro payments customers pm now timestamp
    exact ⟨rfl, by simp [createPaymentDoc, Fields.lookup]⟩

/-- C8 witness: the amended statement at concrete inputs — `"card"` is
rejected by `/api/payment-method`, `"cod"` is accepted there, and
`/payments` happily inserts `"foo"`. -/
theorem C8_amended_payment_method_witness :
    save_payment_method [] [] "card" "T" =
      (.error ⟨400, "Invalid payment method"⟩, []) ∧
    save_payment_method [] [] "cod" "T" =
      (.ok "success", [paymentDoc "cod" [] "T"]) ∧
    (create_payment [] [] "foo" none "T").2 =
      [createPaymentDoc "foo" none [] "T"] := by
  refine ⟨C8_amended_payment_method.1 [] [] "card" "T" (by decide), ?_, ?_⟩
  · have h := (C8_amended_payment_method.2.1 [] [] "cod" "T" (Or.inr rfl)).1
    simpa using h
  · have h := (C8_amended_payment_method.2.2 [] [] "foo" "T" none).1
    rw [h]
    rfl

/-- C9: for the four id-addressed delete operations carrying the guard, an
id equal to `"undefined"` in any letter casing is treated exactly like a
missing id: the operation fails with the same BadRequest error and the
store is untouched — no lookup or deletion happens. -/
theorem C9_undefined_id_as_missing :
    ∀ (store : List Fields) (s : String), pyLower s = "undefined" →
      (api_delete_address store (some s) = api_delete_address store none ∧
       api_delete_address store (some s) =
         (.error ⟨400, "Address id is missing"⟩, store)) ∧
      (delete_cart_by_body store (some s) = delete_cart_by_body store none ∧
       delete_cart_by_body store (some s) =
         (.error ⟨400, "Cart id is missing"⟩, store)) ∧
      (delete_payment store (some s) = delete_payment store none ∧
       delete_payment store (some s) =
         (.error ⟨400, "Payment id is missing"⟩, store)) ∧
      delete_payment_by_param store s =
        (.error ⟨400, "Payment id is missing or undefined."⟩, store) := by
  intro store s hs
  have hm : missingOrUndef (some s) = true := by
    simp [missingOrUndef, hs]
  refine ⟨⟨?_, ?_⟩, ⟨?_, ?_⟩, ⟨?_, ?_⟩, ?_⟩ <;>
    simp [api_delete_address, delete_cart_by_body, delete_payment,
      delete_payment_by_param, missingOrUndef, hm, hs]

/-- C9 witness: the statement applied at `"UNDEFINED"` (uppercase) against
an arbitrary concrete store. -/
theorem C9_undefined_id_as_missing_witness :
    api_delete_address [.fcons "street" (.vStr "S") .fnil]
        (some "UNDEFINED") =
      (.error ⟨400, "Address id is missing"⟩,
        [.fcons "street" (.vStr "S") .fnil]) ∧
    delete_payment_by_param [] "Undefined" =
      (.error ⟨400, "Payment id is missing or undefined."⟩, []) := by
  have h1 := C9_undefined_id_as_missing [.fcons "street" (.vStr "S") .fnil]
    "UNDEFINED" (by decide)
  have h2 := C9_undefined_id_as_missing [] "Undefined" (by decide)
  exact ⟨h1.1.2, h2.2.2.2⟩

/-! ### Admin order listing (`get_orders`) -/

/-- One projected row of `GET /orders`: every key of the dict built in the
loop is present, so the `x.get("created_at", datetime.min)` default in the
sort key can never fire. Timestamps are modelled as integers (`vInt`);
BSON datetimes are totally ordered, and this backend only ever writes
`datetime` values into `created_at`. -/
structure OrderRow where
  id : String
  pisa_code : Value
  name : Value
  phonenumber : Value
  street : Value
  village : Value
  pincode : Value
  city : Value
  state : Value
  created_at : Value
  deriving DecidableEq

/-- The row built for a document in the current (flat) shape, whose
`address` subdocument supplies the address fields; defaults are the
literal `"-"` placeholder, and a document missing `created_at` is stamped
with the projection-time clock `now`. -/
def rowFlat (doc address : Fields) (now : Int) : OrderRow :=
  ⟨pyStr ((doc.lookup "_id").getD .vNull),
   (doc.lookup "user_code").getD ((doc.lookup "pisa_code").getD (.vStr "-")),
   (doc.lookup "name").getD (.vStr "-"),
   (doc.lookup "phonenumber").getD (.vStr "-"),
   (address.lookup "street").getD (.vStr "-"),
   (address.lookup "village").getD (.vStr "-"),
   (address.lookup "pincode").getD (.vStr "-"),
   (address.lookup "city").getD (.vStr "-"),
   (address.lookup "state").getD (.vStr "-"),
   (doc.lookup "created_at").getD (.vInt now)⟩

/-- The row built for one entry of a legacy `addresses` array: name and
phone fall back to the address entry's own values before `"-"`. -/
def rowLegacy (doc address : Fields) (now : Int) : OrderRow :=
  ⟨pyStr ((doc.lookup "_id").getD .vNull),
   (doc.lookup "user_code").getD ((doc.lookup "pisa_code").getD (.vStr "-")),
   (doc.lookup "name").getD ((address.lookup "name").getD (.vStr "-")),
   (doc.lookup "phonenumber").getD
     ((address.lookup "phonenumber").getD (.vStr "-")),
   (address.lookup "street").getD (.vStr "-"),
   (address.lookup "village").getD (.vStr "-"),
   (address.lookup "pincode").getD (.vStr "-"),
   (address.lookup "city").getD (.vStr "-"),
   (address.lookup "state").getD (.vStr "-"),
   (doc.lookup "created_at").getD (.vInt now)⟩

/-- One row per entry of a legacy `addresses` array; a non-dict entry makes
`address.get(...)` raise (`none` = 500). -/
def rowsLegacy (doc : Fields) (now : Int) : List Value →
    Option (List OrderRow)
  | [] => some []
  | .vObj address :: rest =>
      match rowsLegacy doc now rest with
      | none => none
      | some rs => some (rowLegacy doc address now :: rs)
  | _ :: _ => none

/-- The rows of one customer document: the flat shape produces one row from
the `address` subdocument, the legacy shape one row per `addresses` entry.
`none` models the loop body raising (non-dict `address`, non-iterable
`addresses`, or non-dict entries); an empty string or empty dict iterates
zero times in Python and yields no rows. -/
def docRows (doc : Fields) (now : Int) : Option (List OrderRow) :=
  match doc.lookup "address" with
  | some (.vObj address) => some [rowFlat doc address now]
  | some _ => none
  | none =>
      match (doc.lookup "addresses").getD (.vArr .nil) with
      | .vArr xs => rowsLegacy doc now xs.toList
      | .vStr s => if s = "" then some [] else none
      | .vObj .fnil => some []
      | _ => none

/-- All projected rows, in document order. -/
def allRows : List Fields → Int → Option (List OrderRow)
  | [], _ => some []
  | d :: ds, now =>
      match docRows d now, allRows ds now with
      | some r, some rs => some (r ++ rs)
      | _, _ => none

/-- The integer behind a row's sort key. -/
def rowKeyInt (r : OrderRow) : Int :=
  match r.created_at with
  | .vInt n => n
  | _ => 0

def isIntTs : Value → Bool
  | .vInt _ => true
  | _ => false

/-- Insert into a descending-sorted list, after every strictly greater key:
the unique stable position, matching Python's stable
`sort(key=..., reverse=True)`. -/
def insertDesc (r : OrderRow) : List OrderRow → List OrderRow
  | [] => [r]
  | x :: xs =>
      if rowKeyInt r < rowKeyInt x then x :: insertDesc r xs
      else r :: x :: xs

/-- Stable descending sort by `created_at` (insertion sort — extensionally
equal to any stable descending sort, hence to Python's). -/
def sortRowsDesc : List OrderRow → List OrderRow
  | [] => []
  | r :: rs => insertDesc r (sortRowsDesc rs)

/-- `GET /orders` (`get_orders`): project every customer document and sort
the rows by `created_at` descending. The guard requires every row's
timestamp to be an integer: a non-datetime `created_at` (which this backend
never writes) would make Python's sort comparisons raise. -/
def get_orders (docs : List Fields) (now : Int) : Option (List OrderRow) :=
  match allRows docs now with
  | none => none
  | some rows =>
      if rows.all fun r => isIntTs r.created_at
      then some (sortRowsDesc rows)
      else none

/-- Descending order on the projected sort key. -/
def SortedDesc (l : List OrderRow) : Prop :=
  l.Pairwise fun a b => rowKeyInt b ≤ rowKeyInt a

theorem insertDesc_perm (r : OrderRow) :
    ∀ l : List OrderRow, (insertDesc r l).Perm (r :: l)
  | [] => List.Perm.refl _
  | x :: xs => by
      unfold insertDesc
      by_cases hc : rowKeyInt r < rowKeyInt x
      · rw [if_pos hc]
        exact ((insertDesc_perm r xs).cons x).trans (List.Perm.swap r x xs)
      · rw [if_neg hc]

theorem sortRowsDesc_perm :
    ∀ l : List OrderRow, (sortRowsDesc l).Perm l
  | [] => List.Perm.refl _
  | r :: rs => by
      unfold sortRowsDesc
      exact (insertDesc_perm r (sortRowsDesc rs)).trans
        ((sortRowsDesc_perm rs).cons r)

theorem insertDesc_sorted (r : OrderRow) :
    ∀ l : List OrderRow, SortedDesc l → SortedDesc (insertDesc r l)
  | [], _ => by simp [insertDesc, SortedDesc]
  | x :: xs, h => by
      unfold SortedDesc at h
      rw [List.pairwise_cons] at h
      unfold insertDesc
      by_cases hc : rowKeyInt r < rowKeyInt x
      · rw [if_pos hc]
        unfold SortedDesc
        rw [List.pairwise_cons]
        constructor
        · intro a ha
          rw [(insertDesc_perm r xs).mem_iff] at ha
          rcases List.mem_cons.mp ha with ha | ha
          · subst ha
            omega
          · exact h.1 a ha
        · exact insertDesc_sorted r xs h.2
      · rw [if_neg hc]
        unfold SortedDesc
        rw [List.pairwise_cons]
        constructor
        · intro a ha
          rcases List.mem_cons.mp ha with ha | ha
          · subst ha
            omega
          · have := h.1 a ha
            omega
        · rw [List.pairwise_cons]
          exact h

theorem sortRowsDesc_sorted :
    ∀ l : List OrderRow, SortedDesc (sortRowsDesc l)
  | [] => by simp [sortRowsDesc, SortedDesc]
  | r :: rs => by
      unfold sortRowsDesc
      exact insertDesc_sorted r (sortRowsDesc rs) (sortRowsDesc_sorted rs)

theorem rowsLegacy_stamped (doc : Fields) (now : Int) :
    ∀ (xs : List Value) (rs : List OrderRow),
      doc.lookup "created_at" = none → rowsLegacy doc now xs = some rs →
      ∀ row ∈ rs, row.created_at = .vInt now := by
  intro xs
  induction xs with
  | nil =>
      intro rs h hr
      simp [rowsLegacy] at hr
      subst hr
      simp
  | cons v rest ih =>
      intro rs h hr
      cases v
      case vObj a =>
        unfold rowsLegacy at hr
        cases hrec : rowsLegacy doc now rest with
        | none =>
            rw [hrec] at hr
            simp at hr
        | some rs2 =>
            rw [hrec] at hr
            simp only [Option.some.injEq] at hr
            subst hr
            intro row hrow
            rcases List.mem_cons.mp hrow with he | he
            · subst he
              simp [rowLegacy, h]
            · exact ih rs2 h hrec row he
      all_goals simp [rowsLegacy] at hr

theorem docRows_stamped (doc : Fields) (now : Int) (r1 : List OrderRow)
    (h : doc.lookup "created_at" = none) (hd : docRows doc now = some r1) :
    ∀ row ∈ r1, row.created_at = .vInt now := by
  unfold docRows at hd
  cases ha : doc.lookup "address" with
  | some v =>
      rw [ha] at hd
      cases v
      case vObj address =>
        simp only [Option.some.injEq] at hd
        subst hd
        intro row hrow
        rcases List.mem_cons.mp hrow with he | he
        · subst he
          simp [rowFlat, h]
        · simp at he
      all_goals simp at hd
  | none =>
      cases hb : (doc.lookup "addresses").getD (.vArr .nil) with
      | vArr xs =>
          simp only [ha, hb] at hd
          exact rowsLegacy_stamped doc now xs.toList r1 h hd
      | vStr s =>
          simp only [ha, hb] at hd
          by_cases hs : s = ""
          · rw [if_pos hs] at hd
            simp only [Option.some.injEq] at hd
            subst hd
            simp
          · rw [if_neg hs] at hd
            simp at hd
      | vObj fs =>
          cases fs with
          | fnil =>
              simp only [ha, hb, Option.some.injEq] at hd
              subst hd
              simp
          | fcons k v fs2 =>
              simp only [ha, hb] at hd
              exact Option.noConfusion hd
      | vNull =>
          simp only [ha, hb] at hd
          exact Option.noConfusion hd
      | vBool b =>
          simp only [ha, hb] at hd
          exact Option.noConfusion hd
      | vInt n =>
          simp only [ha, hb] at hd
          exact Option.noConfusion hd
      | vFlt d =>
          simp only [ha, hb] at hd
          exact Option.noConfusion hd
      | vOid n =>
          simp only [ha, hb] at hd
          exact Option.noConfusion hd

/-- C5 counterexample: with two stored documents — one with
`created_at = 5` and one with no `created_at` — projected at clock value
`10`, the missing-`created_at` document is stamped with the current time
and sorts FIRST (as the newest), not last: its row (`_id` ..02) heads the
listing and is not the last row, contradicting the claim that such
documents sort as the minimum timestamp. -/
theorem C5_counterexample_missing_created_at_first :
    ((get_orders
      [.fcons "_id" (.vOid 1) (.fcons "address" (.vObj .fnil)
        (.fcons "created_at" (.vInt 5) .fnil)),
       .fcons "_id" (.vOid 2) (.fcons "address" (.vObj .fnil) .fnil)]
      10).map fun rows => rows.map fun r => (r.id, r.created_at)) =
      some [(toHex24 2, .vInt 10), (toHex24 1, .vInt 5)] ∧
    ((get_orders
      [.fcons "_id" (.vOid 1) (.fcons "address" (.vObj .fnil)
        (.fcons "created_at" (.vInt 5) .fnil)),
       .fcons "_id" (.vOid 2) (.fcons "address" (.vObj .fnil) .fnil)]
      10).map fun rows => rows.getLast?.map OrderRow.id) ≠
      some (some (toHex24 2)) := by
  constructor
  · decide
  · decide

/-- C5 (amended): the listing sorts the projected rows by `created_at`
descending; but a document missing `created_at` does not sort as the
minimum timestamp — the projection fills its row with the
projection-time clock (`datetime.utcnow()`), so such rows sort as the
newest; the `datetime.min` default in the sort key is dead code because
every projected row carries a `created_at`. -/
theorem C5_amended_order_listing :
    ∀ (docs : List Fields) (now : Int) (rows : List OrderRow),
      get_orders docs now = some rows →
      SortedDesc rows ∧
      (∃ raw, allRows docs now = some raw ∧ rows.Perm raw) ∧
      (∀ (doc : Fields) (r1 : List OrderRow),
        doc.lookup "created_at" = none → docRows doc now = some r1 →
        ∀ row ∈ r1, row.created_at = .vInt now) := by
  intro docs now rows hg
  unfold get_orders at hg
  split at hg
  next hall => exact Option.noConfusion hg
  next raw hall =>
    split at hg
    next hints =>
      simp only [Option.some.injEq] at hg
      subst hg
      exact ⟨sortRowsDesc_sorted raw, ⟨raw, hall, sortRowsDesc_perm raw⟩,
        fun doc r1 h hd => docRows_stamped doc now r1 h hd⟩
    next hints => exact Option.noConfusion hg

/-- C5 witness: the amended statement at the two-document store — the
result is sorted descending and is a permutation of the projected rows,
in which the document missing `created_at` was stamped with the clock. -/
theorem C5_amended_order_listing_witness :
    SortedDesc ((get_orders
      [.fcons "_id" (.vOid 1) (.fcons "address" (.vObj .fnil)
        (.fcons "created_at" (.vInt 5) .fnil)),
       .fcons "_id" (.vOid 2) (.fcons "address" (.vObj .fnil) .fnil)]
      10).getD []) ∧
    ((get_orders
      [.fcons "_id" (.vOid 1) (.fcons "address" (.vObj .fnil)
        (.fcons "created_at" (.vInt 5) .fnil)),
       .fcons "_id" (.vOid 2) (.fcons "address" (.vObj .fnil) .fnil)]
      10).getD []).Perm
      [rowFlat (.fcons "_id" (.vOid 1) (.fcons "address" (.vObj .fnil)
        (.fcons "created_at" (.vInt 5) .fnil))) .fnil 10,
       rowFlat (.fcons "_id" (.vOid 2) (.fcons "address" (.vObj .fnil)
         .fnil)) .fnil 10] := by
  have h := C5_amended_order_listing
    [.fcons "_id" (.vOid 1) (.fcons "address" (.vObj .fnil)
      (.fcons "created_at" (.vInt 5) .fnil)),
     .fcons "_id" (.vOid 2) (.fcons "address" (.vObj .fnil) .fnil)] 10
    ((get_orders
      [.fcons "_id" (.vOid 1) (.fcons "address" (.vObj .fnil)
        (.fcons "created_at" (.vInt 5) .fnil)),
       .fcons "_id" (.vOid 2) (.fcons "address" (.vObj .fnil) .fnil)]
      10).getD []) (by decide)
  refine ⟨h.1, ?_⟩
  obtain ⟨raw, hraw, hperm⟩ := h.2.1
  have h2 : allRows
      [.fcons "_id" (.vOid 1) (.fcons "address" (.vObj .fnil)
        (.fcons "created_at" (.vInt 5) .fnil)),
       .fcons "_id" (.vOid 2) (.fcons "address" (.vObj .fnil) .fnil)] 10 =
      some [rowFlat (.fcons "_id" (.vOid 1) (.fcons "address" (.vObj .fnil)
        (.fcons "created_at" (.vInt 5) .fnil))) .fnil 10,
       rowFlat (.fcons "_id" (.vOid 2) (.fcons "address" (.vObj .fnil)
         .fnil)) .fnil 10] := by decide
  rw [hraw] at h2
  rw [← Option.some.inj h2]
  exact hperm

end Pisakart
